import Mathlib

/-!
Verification of the attribute-delegation mechanism of
`hikari/internal_utilities/delegate.py`.

The Python module installs, on a "host" class, one read-only forwarding
descriptor (`DelegatedProperty`) per eligible member of a "delegate" class,
and keeps two bookkeeping attributes on the host class:
`___delegate_members___` (a frozenset of all forwarded names) and
`___delegate_type_mapping___` (a tuple of `(magic_field, delegate_type)`
pairs, one per application of the decorator).

The embedding below models the fragment of the Python object system that the
module relies on: classes with a `__dict__`, an `__annotations__` name list
and a method-resolution order; instances as heap objects with an instance
dict; and attribute lookup with the (non-data) descriptor protocol.
`DelegatedProperty` defines `__get__` but no `__set__`, so it is a non-data
descriptor: instance-dict entries take priority over it on reads, and
attribute assignment always writes the instance dict.
-/

namespace HikariDelegate

/-- Python runtime values, restricted to the shapes the delegation mechanism
manipulates.  `vprop` is a `DelegatedProperty` instance (its arguments are the
`magic_field` and `delegated_member_name` constructor arguments); `ref` is a
reference to a heap object; `vfrozenset` and `vbindings` are the values stored
in the two bookkeeping class attributes.  `vfunc` and `vmeth` stand for values
on which `inspect.isfunction` resp. `inspect.ismethod` is true. -/
inductive PyVal where
  | vint (n : Int)
  | vstr (s : String)
  | vnone
  | vfunc (id : Nat)
  | vmeth (id : Nat)
  | vprop (magic_field delegated_member_name : String)
  | ref (addr : Nat)
  | vfrozenset (elems : List String)
  | vbindings (pairs : List (String × String))
deriving DecidableEq

/-- A Python instance: its class name and its instance `__dict__`. -/
structure PyObj where
  cls : String
  idict : List (String × PyVal)
deriving DecidableEq

/-- A Python class: its name, its method-resolution order (starting with the
class itself), its own `__dict__`, and the name list visible as its
`__annotations__`. -/
structure PyClass where
  name : String
  mro : List String
  cdict : List (String × PyVal)
  annotations : List String
deriving DecidableEq

abbrev ClassTable := List PyClass

abbrev Heap := List PyObj

/-- Dictionary lookup in an association list (first binding wins, as in a
Python `dict`, whose keys are unique). -/
def assocFind (d : List (String × PyVal)) (k : String) : Option PyVal :=
  match d with
  | [] => none
  | (k', v) :: rest => if k' = k then some v else assocFind rest k

/-- Dictionary update: replace the first binding of `k`, or append a new one.
Models `setattr` on a class or instance dict. -/
def assocSet (d : List (String × PyVal)) (k : String) (v : PyVal) :
    List (String × PyVal) :=
  match d with
  | [] => [(k, v)]
  | (k', v') :: rest =>
    if k' = k then (k, v) :: rest else (k', v') :: assocSet rest k v

/-- Resolve a class name in the class table. -/
def findCls (Γ : ClassTable) (n : String) : Option PyClass :=
  Γ.find? (fun c => c.name = n)

/-- Class-level attribute search along a method-resolution order: the first
class in `mro` whose `__dict__` binds `name` wins. -/
def mroLookup (Γ : ClassTable) (mro : List String) (name : String) :
    Option PyVal :=
  match mro with
  | [] => none
  | cn :: rest =>
    match findCls Γ cn with
    | some c =>
      match assocFind c.cdict name with
      | some v => some v
      | none => mroLookup Γ rest name
    | none => mroLookup Γ rest name

/-- Replace every class named `cn` in the table by `c'`.  Models the in-place
mutation of the class object performed by `setattr(cls, ...)`. -/
def setCls (Γ : ClassTable) (cn : String) (c' : PyClass) : ClassTable :=
  Γ.map (fun k => if k.name = cn then c' else k)

/-- Python's `str.startswith`. -/
def startswith (s pre : String) : Bool :=
  pre.data.isPrefixOf s.data

/-- `inspect.isfunction`. -/
def isfunction : PyVal → Bool
  | .vfunc _ => true
  | _ => false

/-- `inspect.ismethod`. -/
def ismethod : PyVal → Bool
  | .vmeth _ => true
  | _ => false

/-- `_SPECIAL_ATTRS_TO_IGNORE` from the source. -/
def SPECIAL_ATTRS_TO_IGNORE : List String := ["_abc_impl"]

/-- `_should_ignore_attribute_for_field` from the source. -/
def should_ignore_attribute_for_field (name : String) (value : PyVal) : Bool :=
  isfunction value || ismethod value || startswith name "__"
    || SPECIAL_ATTRS_TO_IGNORE.contains name

def DELEGATE_MEMBERS_FIELD : String := "___delegate_members___"

def DELEGATE_TYPES_FIELD : String := "___delegate_type_mapping___"

/-- `dict_fields` from `delegate_to`: the keys of the delegate type's own
`__dict__` that survive `_should_ignore_attribute_for_field`. -/
def dict_fields (delegate_type : PyClass) : List String :=
  (delegate_type.cdict.filter
      (fun p => ! should_ignore_attribute_for_field p.1 p.2)).map Prod.fst

/-- `targets = dict_fields | annotation_fields` from `delegate_to`: a set, so
only membership matters; modelled as a duplicate-free list. -/
def targets (delegate_type : PyClass) : List String :=
  (dict_fields delegate_type ++ delegate_type.annotations).dedup

/-- The errors `delegate_to` can signal.  `configurationError` models the
error raised by `assertions.assert_subclasses` (that module is not part of the
sources; the spec names the error `ConfigurationError`); `typeError` models
the `TypeError` Python raises when a bookkeeping attribute holds a value of
the wrong shape; `nameError` models an unresolvable class name. -/
inductive DErr where
  | configurationError
  | typeError
  | nameError
deriving DecidableEq

instance {ε α : Type} [DecidableEq ε] [DecidableEq α] :
    DecidableEq (Except ε α) := fun a b =>
  match a, b with
  | .ok x, .ok y =>
    if h : x = y then .isTrue (by rw [h]) else .isFalse (by simp [h])
  | .error x, .error y =>
    if h : x = y then .isTrue (by rw [h]) else .isFalse (by simp [h])
  | .ok _, .error _ => .isFalse (by simp)
  | .error _, .ok _ => .isFalse (by simp)

/-- `getattr(cls, DELEGATE_TYPES_FIELD, containers.EMPTY_SEQUENCE)`, followed
by the tuple-splat `(*delegated_types, ...)` which requires the value to be a
sequence of pairs. -/
def getLedgerTypes (Γ : ClassTable) (c : PyClass) :
    Except DErr (List (String × String)) :=
  match mroLookup Γ c.mro DELEGATE_TYPES_FIELD with
  | none => .ok []
  | some (.vbindings l) => .ok l
  | some _ => .error .typeError

/-- `getattr(cls, DELEGATE_MEMBERS_FIELD, set())`, followed by the set-union
`delegated_members |= ...` which requires the value to be a set of names. -/
def getLedgerMembers (Γ : ClassTable) (c : PyClass) :
    Except DErr (List String) :=
  match mroLookup Γ c.mro DELEGATE_MEMBERS_FIELD with
  | none => .ok []
  | some (.vfrozenset l) => .ok l
  | some _ => .error .typeError

/-- The `for name in targets` loop of `delegate_to`: install
`DelegatedProperty(magic_field, name)` on the class dict under each target
name. -/
def applyTargets (cdict : List (String × PyVal)) (magic_field : String) :
    List String → List (String × PyVal)
  | [] => cdict
  | n :: rest => applyTargets (assocSet cdict n (.vprop magic_field n)) magic_field rest

/-- The host class right after the installation loop, before the two
bookkeeping `setattr`s. -/
def instCls (cls delegate_type : PyClass) (magic_field : String) : PyClass :=
  { cls with cdict := applyTargets cls.cdict magic_field (targets delegate_type) }

/-- The host class at the end of a successful `delegate_to` application:
targets installed, then `DELEGATE_MEMBERS_FIELD` bound to the frozenset of
installed-plus-inherited member names, then `DELEGATE_TYPES_FIELD` bound to
the inherited bindings tuple with `(magic_field, delegate_type)` appended. -/
def finalCls (cls delegate_type : PyClass) (magic_field delegate_name : String)
    (delegated_types : List (String × String)) (inherited : List String) :
    PyClass :=
  { cls with
    cdict :=
      assocSet
        (assocSet (applyTargets cls.cdict magic_field (targets delegate_type))
          DELEGATE_MEMBERS_FIELD
          (.vfrozenset ((targets delegate_type ++ inherited).dedup)))
        DELEGATE_TYPES_FIELD
        (.vbindings (delegated_types ++ [(magic_field, delegate_name)])) }

/-- `delegate_to(delegate_type, magic_field)` applied to the class named
`clsName`, acting on the class table.  Follows the source line by line: the
subclass assertion first, then the read of the inherited bindings tuple, then
the installation loop, then the read of the inherited member set (on the
already-mutated class, as in the source), then the two bookkeeping
`setattr`s. -/
def delegate_to (Γ : ClassTable) (delegate_type magic_field clsName : String) :
    Except DErr ClassTable :=
  match findCls Γ clsName, findCls Γ delegate_type with
  | some cls, some dty =>
    -- Modelled from the spec: `assertions.assert_subclasses(cls, delegate_type)`
    -- (module `hikari.internal_utilities.assertions` is not among the sources);
    -- per the spec it raises `ConfigurationError` when the host is not a
    -- subclass of the delegate.  `issubclass(cls, d)` holds iff `d` is in
    -- `cls.__mro__`.
    if delegate_type ∈ cls.mro then
      match getLedgerTypes Γ cls with
      | .error e => .error e
      | .ok delegated_types =>
        match getLedgerMembers (setCls Γ clsName (instCls cls dty magic_field))
            (instCls cls dty magic_field) with
        | .error e => .error e
        | .ok inherited =>
          .ok (setCls Γ clsName
            (finalCls cls dty magic_field delegate_type delegated_types inherited))
    else .error .configurationError
  | _, _ => .error .nameError

/-- Heap dereference. -/
def heapGet (H : Heap) (a : Nat) : Option PyObj :=
  H.get? a

/-- Instance-level attribute read, `getattr(o, name)`, with `fuel` bounding
the number of `DelegatedProperty.__get__` dereferences (Python would hit a
recursion limit on a cyclic chain).  Order of precedence: the model contains
no data descriptors (`DelegatedProperty` has no `__set__`), so the instance
dict is consulted first, then the class along its MRO; a `DelegatedProperty`
found there runs its `__get__`, which reads the magic field off the instance
and then reads the delegated member name off that (heap-dereferenced)
value. -/
def getattrO (Γ : ClassTable) (H : Heap) : Nat → PyObj → String → Option PyVal
  | fuel, o, name =>
    match assocFind o.idict name with
    | some v => some v
    | none =>
      match findCls Γ o.cls with
      | some c =>
        match mroLookup Γ c.mro name with
        | some (.vprop f m) =>
          match fuel with
          | 0 => none
          | fuel' + 1 =>
            match getattrO Γ H fuel' o f with
            | some (.ref a) =>
              match heapGet H a with
              | some d => getattrO Γ H fuel' d m
              | none => none
            | some _ => none
            | none => none
        | some v => some v
        | none => none
      | none => none

/-- Attribute read off a value: only references to heap objects have
attributes in this model. -/
def getattrV (Γ : ClassTable) (H : Heap) (fuel : Nat) (v : PyVal)
    (name : String) : Option PyVal :=
  match v with
  | .ref a =>
    match heapGet H a with
    | some d => getattrO Γ H fuel d name
    | none => none
  | _ => none

/-- Instance-level attribute assignment, `setattr(o, name, v)`.  No class in
this model carries a data descriptor (`DelegatedProperty` defines `__get__`
but no `__set__`), so Python's assignment protocol always writes the instance
dict; nothing can raise. -/
def setattrO (o : PyObj) (name : String) (v : PyVal) : PyObj :=
  { o with idict := assocSet o.idict name v }

/-- Type-level attribute read, `getattr(cls, name)`.  A `DelegatedProperty`
found on the class is invoked with `instance = None`, and its `__get__` then
returns the property object itself (`return self` in the source). -/
def getattrT (Γ : ClassTable) (cn name : String) : Option PyVal :=
  match findCls Γ cn with
  | some c =>
    match mroLookup Γ c.mro name with
    | some (.vprop f m) => some (.vprop f m)
    | some v => some v
    | none => none
  | none => none

/-- Introspection: the visible forwarded-name set of a host class (the
frozenset stored under `DELEGATE_MEMBERS_FIELD`, found along the MRO). -/
def forwardedNames (Γ : ClassTable) (cn : String) : List String :=
  match findCls Γ cn with
  | some c =>
    match mroLookup Γ c.mro DELEGATE_MEMBERS_FIELD with
    | some (.vfrozenset l) => l
    | _ => []
  | none => []

/-- Introspection: the visible bindings tuple of a host class (the tuple of
`(magic_field, delegate_type)` pairs stored under `DELEGATE_TYPES_FIELD`,
found along the MRO). -/
def getBindings (Γ : ClassTable) (cn : String) : List (String × String) :=
  match findCls Γ cn with
  | some c =>
    match mroLookup Γ c.mro DELEGATE_TYPES_FIELD with
    | some (.vbindings l) => l
    | _ => []
  | none => []

/-! ### Concrete example classes and instances

A delegate class `D` with one class-level data member `m`, one function member
`doThing`, one dunder member `__internal`, one ignore-listed member
`_abc_impl`, and one annotation-only member `n`; a host class `H` that
subclasses `D`.  `targets exD = ["m", "n"]`. -/

def exD : PyClass :=
  ⟨"D", ["D"],
    [("m", .vint 0), ("doThing", .vfunc 0), ("__internal", .vint 1),
      ("_abc_impl", .vint 2)],
    ["n"]⟩

def exH : PyClass := ⟨"H", ["H", "D"], [], []⟩

def exGamma : ClassTable := [exH, exD]

/-- The class table after `delegate_to(exD, "f")` is applied to `H`. -/
def exT1 : ClassTable :=
  match delegate_to exGamma "D" "f" "H" with
  | .ok t => t
  | .error _ => []

/-- An instance of `D` with `m = 7` and `n = 8`, stored at heap address 0. -/
def exd : PyObj := ⟨"D", [("m", .vint 7), ("n", .vint 8)]⟩

def exHeap : Heap := [exd]

/-- An instance of `H` whose magic field `f` holds (a reference to) `exd`. -/
def exh : PyObj := ⟨"H", [("f", .ref 0)]⟩

/-- An instance of `H` whose field `f` holds `exd` but whose own instance dict
additionally binds `m` (for example because `h.m = 99` was executed, which the
non-data descriptor cannot intercept). -/
def exhShadow : PyObj := ⟨"H", [("f", .ref 0), ("m", .vint 99)]⟩

/-- A host class that is not a subclass of `D` (its MRO does not contain
`D`). -/
def exHB : PyClass := ⟨"HB", ["HB"], [], []⟩

def exGammaB : ClassTable := [exHB, exD]

/-- A delegate class whose class dict holds only a function member and a
dunder member, but whose annotations name `__x__` (a dunder). -/
def exD4 : PyClass :=
  ⟨"D4", ["D4"], [("doThing", .vfunc 0), ("__internal", .vint 1)], ["__x__"]⟩

/-- A second delegate class for layering: `targets exD2 = ["p"]`, disjoint
from `targets exD = ["m", "n"]`. -/
def exD2 : PyClass := ⟨"D2", ["D2"], [("p", .vstr "x")], []⟩

def exH5 : PyClass := ⟨"H5", ["H5", "D", "D2"], [], []⟩

def exGamma5 : ClassTable := [exH5, exD, exD2]

/-- Table after delegating `H5` to `D` through field `f1`. -/
def exT5a : ClassTable :=
  match delegate_to exGamma5 "D" "f1" "H5" with
  | .ok t => t
  | .error _ => []

/-- Table after additionally delegating `H5` to `D2` through field `f2`. -/
def exT5b : ClassTable :=
  match delegate_to exT5a "D2" "f2" "H5" with
  | .ok t => t
  | .error _ => []

/-- Table after re-applying the identical delegation to `H` a second time. -/
def exT10 : ClassTable :=
  match delegate_to exT1 "D" "f" "H" with
  | .ok t => t
  | .error _ => []

/-- A subclass of the already-delegated `H`, used to show that a descendant
inherits the ancestor's visible ledger and layers its own binding on top. -/
def exHS : PyClass := ⟨"HS", ["HS", "H", "D"], [], []⟩

def exGammaS : ClassTable := exHS :: exT1

/-- Table after delegating the subclass `HS` to `D` through field `g`. -/
def exTS : ClassTable :=
  match delegate_to exGammaS "D" "g" "HS" with
  | .ok t => t
  | .error _ => []

/-- A delegate type whose annotations name the bookkeeping attribute
`___delegate_type_mapping___`, so that name becomes a target; the decorator
then overwrites the installed accessor with the bindings tuple. -/
def exDT : PyClass := ⟨"DT", ["DT"], [], ["___delegate_type_mapping___"]⟩

def exHT : PyClass := ⟨"HT", ["HT", "DT"], [], []⟩

def exGammaT : ClassTable := [exHT, exDT]

/-- Table after delegating `HT` to `DT` through field `f`. -/
def exTT : ClassTable :=
  match delegate_to exGammaT "DT" "f" "HT" with
  | .ok t => t
  | .error _ => []

/-- An instance of `DT` that happens to carry the bookkeeping name as an
ordinary instance attribute, stored at heap address 0 of `exHeapT`. -/
def exdT : PyObj := ⟨"DT", [("___delegate_type_mapping___", .vint 1)]⟩

def exHeapT : Heap := [exdT]

def exhT : PyObj := ⟨"HT", [("f", .ref 0)]⟩

/-! ### Basic lookup lemmas -/

theorem assocFind_assocSet (d : List (String × PyVal)) (k k' : String)
    (v : PyVal) :
    assocFind (assocSet d k v) k' = if k = k' then some v else assocFind d k' := by
  induction d with
  | nil => simp [assocSet, assocFind]
  | cons p rest ih =>
    obtain ⟨k₀, v₀⟩ := p
    by_cases h₀ : k₀ = k
    · subst h₀
      simp [assocSet, assocFind]
      by_cases h₁ : k₀ = k'
      · simp [h₁]
      · simp [h₁, assocFind]
    · simp [assocSet, h₀, assocFind]
      by_cases h₁ : k₀ = k'
      · subst h₁
        have : ¬ (k = k₀) := fun h => h₀ h.symm
        simp [this]
      · simp [h₁, ih]

theorem assocFind_applyTargets (ts : List String)
    (cdict : List (String × PyVal)) (f m : String) :
    assocFind (applyTargets cdict f ts) m =
      if m ∈ ts then some (.vprop f m) else assocFind cdict m := by
  induction ts generalizing cdict with
  | nil => simp [applyTargets]
  | cons n rest ih =>
    simp only [applyTargets]
    rw [ih]
    by_cases hr : m ∈ rest
    · simp [hr]
    · by_cases hn : n = m
      · subst hn
        simp [hr, assocFind_assocSet]
      · have hmem : m ∉ n :: rest := by
          intro hm
          rcases List.mem_cons.mp hm with h | h
          · exact hn h.symm
          · exact hr h
        rw [assocFind_assocSet, if_neg hr, if_neg hn, if_neg hmem]

theorem name_of_findCls (Γ : ClassTable) (cn : String) (c : PyClass)
    (h : findCls Γ cn = some c) : c.name = cn := by
  have := List.find?_some h
  simpa using this

theorem findCls_setCls (Γ : ClassTable) (cn : String) (c' : PyClass)
    (hc : c'.name = cn) (x : String) :
    findCls (setCls Γ cn c') x =
      if x = cn then (findCls Γ cn).map (fun _ => c') else findCls Γ x := by
  have hpred : ((fun c : PyClass => decide (c.name = x)) ∘
      (fun k : PyClass => if k.name = cn then c' else k)) =
      fun c : PyClass => decide (c.name = x) := by
    funext k
    by_cases hk : k.name = cn
    · simp [hk, hc]
    · simp [hk]
  unfold findCls setCls
  rw [List.find?_map, hpred]
  by_cases hx : x = cn
  · subst hx
    cases hfd : Γ.find? (fun c => decide (c.name = x)) with
    | none => simp
    | some k =>
      have hkx : k.name = x := by simpa using List.find?_some hfd
      simp [hkx]
  · cases hfd : Γ.find? (fun c => decide (c.name = x)) with
    | none => simp [hx]
    | some k =>
      have hkx : k.name = x := by simpa using List.find?_some hfd
      have : ¬ k.name = cn := by rw [hkx]; exact hx
      simp [hx, this]

theorem mroLookup_setCls (Γ : ClassTable) (cn : String) (c' : PyClass)
    (hc : c'.name = cn) (name : String)
    (hsame : ∀ k, findCls Γ cn = some k →
      assocFind c'.cdict name = assocFind k.cdict name) :
    ∀ mro, mroLookup (setCls Γ cn c') mro name = mroLookup Γ mro name := by
  intro mro
  induction mro with
  | nil => rfl
  | cons x rest ih =>
    simp only [mroLookup]
    rw [findCls_setCls Γ cn c' hc x]
    by_cases hx : x = cn
    · subst hx
      rw [if_pos rfl]
      cases hfd : findCls Γ x with
      | none => simpa using ih
      | some k =>
        simp only [Option.map_some']
        rw [hsame k hfd]
        cases assocFind k.cdict name <;> simp [ih]
    · rw [if_neg hx]
      cases hfd : findCls Γ x with
      | none => exact ih
      | some k =>
        cases assocFind k.cdict name <;> simp [ih]

theorem mroLookup_head (Γ : ClassTable) (cn : String) (rest : List String)
    (c : PyClass) (name : String) (v : PyVal)
    (h1 : findCls Γ cn = some c) (h2 : assocFind c.cdict name = some v) :
    mroLookup Γ (cn :: rest) name = some v := by
  simp [mroLookup, h1, h2]

/-! ### A closed form for a successful `delegate_to` application -/

theorem delegate_to_ok (Γ : ClassTable) (dn f cn : String) (cls dty : PyClass)
    (bs : List (String × String)) (ms : List String)
    (h1 : findCls Γ cn = some cls) (h2 : findCls Γ dn = some dty)
    (hsub : dn ∈ cls.mro)
    (hT : getLedgerTypes Γ cls = .ok bs)
    (hbM : DELEGATE_MEMBERS_FIELD ∉ targets dty)
    (hM : getLedgerMembers Γ cls = .ok ms) :
    delegate_to Γ dn f cn = .ok (setCls Γ cn (finalCls cls dty f dn bs ms)) := by
  have hname : cls.name = cn := name_of_findCls Γ cn cls h1
  have hinst : (instCls cls dty f).name = cn := hname
  have hmem : getLedgerMembers (setCls Γ cn (instCls cls dty f))
      (instCls cls dty f) = .ok ms := by
    unfold getLedgerMembers at hM ⊢
    have hmro : (instCls cls dty f).mro = cls.mro := rfl
    rw [hmro]
    rw [mroLookup_setCls Γ cn (instCls cls dty f) hinst DELEGATE_MEMBERS_FIELD
      (fun k hk => by
        rw [h1] at hk
        injection hk with hk
        subst hk
        show assocFind (applyTargets cls.cdict f (targets dty))
            DELEGATE_MEMBERS_FIELD = assocFind cls.cdict DELEGATE_MEMBERS_FIELD
        rw [assocFind_applyTargets, if_neg hbM]) cls.mro]
    exact hM
  unfold delegate_to
  rw [h1, h2]
  simp only [if_pos hsub]
  rw [hT, hmem]

/-! ### Lookups in the class produced by `delegate_to` -/

theorem members_ne_types : DELEGATE_MEMBERS_FIELD ≠ DELEGATE_TYPES_FIELD := by
  decide

theorem finalCls_mro (cls dty : PyClass) (f dn : String) (bs : List (String × String))
    (ms : List String) : (finalCls cls dty f dn bs ms).mro = cls.mro := rfl

theorem finalCls_name (cls dty : PyClass) (f dn : String) (bs : List (String × String))
    (ms : List String) : (finalCls cls dty f dn bs ms).name = cls.name := rfl

theorem finalCls_lookup_types (cls dty : PyClass) (f dn : String)
    (bs : List (String × String)) (ms : List String) :
    assocFind (finalCls cls dty f dn bs ms).cdict DELEGATE_TYPES_FIELD =
      some (.vbindings (bs ++ [(f, dn)])) := by
  simp [finalCls, assocFind_assocSet]

theorem finalCls_lookup_members (cls dty : PyClass) (f dn : String)
    (bs : List (String × String)) (ms : List String) :
    assocFind (finalCls cls dty f dn bs ms).cdict DELEGATE_MEMBERS_FIELD =
      some (.vfrozenset ((targets dty ++ ms).dedup)) := by
  simp only [finalCls]
  rw [assocFind_assocSet, if_neg (fun h => members_ne_types h.symm),
    assocFind_assocSet, if_pos rfl]

theorem finalCls_lookup_target (cls dty : PyClass) (f dn m : String)
    (bs : List (String × String)) (ms : List String)
    (hm : m ∈ targets dty) (hmM : m ≠ DELEGATE_MEMBERS_FIELD)
    (hmT : m ≠ DELEGATE_TYPES_FIELD) :
    assocFind (finalCls cls dty f dn bs ms).cdict m = some (.vprop f m) := by
  simp only [finalCls]
  rw [assocFind_assocSet, if_neg (fun h => hmT h.symm),
    assocFind_assocSet, if_neg (fun h => hmM h.symm),
    assocFind_applyTargets, if_pos hm]

theorem finalCls_lookup_other (cls dty : PyClass) (f dn m : String)
    (bs : List (String × String)) (ms : List String)
    (hm : m ∉ targets dty) (hmM : m ≠ DELEGATE_MEMBERS_FIELD)
    (hmT : m ≠ DELEGATE_TYPES_FIELD) :
    assocFind (finalCls cls dty f dn bs ms).cdict m = assocFind cls.cdict m := by
  simp only [finalCls]
  rw [assocFind_assocSet, if_neg (fun h => hmT h.symm),
    assocFind_assocSet, if_neg (fun h => hmM h.symm),
    assocFind_applyTargets, if_neg hm]

/-! ### Reading the ledger -/

theorem getBindings_of_types (Γ : ClassTable) (cn : String) (cls : PyClass)
    (bs : List (String × String)) (h1 : findCls Γ cn = some cls)
    (hT : getLedgerTypes Γ cls = .ok bs) : getBindings Γ cn = bs := by
  unfold getBindings
  unfold getLedgerTypes at hT
  rw [h1]
  cases hml : mroLookup Γ cls.mro DELEGATE_TYPES_FIELD with
  | none =>
    rw [hml] at hT
    injection hT with hT
    simp [hml, ← hT]
  | some v =>
    rw [hml] at hT
    cases v <;> first
      | (injection hT with hT; simp [hml, ← hT])
      | cases hT

theorem forwardedNames_of_members (Γ : ClassTable) (cn : String) (cls : PyClass)
    (ms : List String) (h1 : findCls Γ cn = some cls)
    (hM : getLedgerMembers Γ cls = .ok ms) : forwardedNames Γ cn = ms := by
  unfold forwardedNames
  unfold getLedgerMembers at hM
  rw [h1]
  cases hml : mroLookup Γ cls.mro DELEGATE_MEMBERS_FIELD with
  | none =>
    rw [hml] at hM
    injection hM with hM
    simp [hml, ← hM]
  | some v =>
    rw [hml] at hM
    cases v <;> first
      | (injection hM with hM; simp [hml, ← hM])
      | cases hM

/-! ### Attribute-read helper lemmas -/

theorem findCls_after (Γ : ClassTable) (cn : String) (cls c' : PyClass)
    (h1 : findCls Γ cn = some cls) (hc : c'.name = cn) :
    findCls (setCls Γ cn c') cn = some c' := by
  rw [findCls_setCls Γ cn c' hc cn, if_pos rfl, h1]
  rfl

theorem getattrO_idict (Γ : ClassTable) (Hp : Heap) (fuel : Nat) (o : PyObj)
    (name : String) (v : PyVal) (h : assocFind o.idict name = some v) :
    getattrO Γ Hp fuel o name = some v := by
  unfold getattrO
  simp only [h]

theorem getattrO_prop_step (Γ : ClassTable) (Hp : Heap) (fuel : Nat)
    (o : PyObj) (name f m : String) (c : PyClass)
    (hid : assocFind o.idict name = none)
    (hc : findCls Γ o.cls = some c)
    (hml : mroLookup Γ c.mro name = some (.vprop f m)) :
    getattrO Γ Hp (fuel + 1) o name =
      match getattrO Γ Hp fuel o f with
      | some (.ref a) =>
        match heapGet Hp a with
        | some d => getattrO Γ Hp fuel d m
        | none => none
      | some _ => none
      | none => none := by
  conv_lhs => rw [getattrO]
  simp only [hid, hc, hml]

/-! ### Claim theorems -/

/-- C8: classifying a delegate type twice (with the type unchanged between
calls) yields the same set of eligible member names: the classification
(`targets` in `delegate_to`) is a deterministic function of the delegate
type's declared members (`__dict__`) and annotations alone. -/
theorem C8_classification_deterministic (D1 D2 : PyClass)
    (hd : D1.cdict = D2.cdict) (ha : D1.annotations = D2.annotations) :
    targets D1 = targets D2 := by
  unfold targets dict_fields
  rw [hd, ha]

/-- Witness for C8 at a concrete delegate type (same members and annotations,
different class name and MRO). -/
theorem C8_classification_deterministic_witness :
    targets ⟨"Dcopy", ["Dcopy"], exD.cdict, exD.annotations⟩ = targets exD :=
  C8_classification_deterministic _ _ rfl rfl

/-- C3: applying `delegate_to(D, f)` to a host class `H` that is not a
subclass of `D` signals `ConfigurationError`; the check is the first step of
the decorator, so no class is mutated and the ledger that was visible before
the call is exactly the ledger visible after it. -/
theorem C3_not_subclass_error (Γ : ClassTable) (dn f cn : String)
    (cls dty : PyClass)
    (h1 : findCls Γ cn = some cls) (h2 : findCls Γ dn = some dty)
    (hsub : dn ∉ cls.mro) :
    delegate_to Γ dn f cn = .error .configurationError := by
  unfold delegate_to
  rw [h1, h2]
  simp only [if_neg hsub]

/-- Witness for C3: `HB` does not subclass `D`. -/
theorem C3_not_subclass_error_witness :
    delegate_to exGammaB "D" "f" "HB" = .error .configurationError :=
  C3_not_subclass_error exGammaB "D" "f" "HB" exHB exD (by decide) (by decide)
    (by decide)

/-- C9: a successful `delegate_to` application to the class named `cn`
replaces only that class's entry in the class table; every other class — in
particular every ancestor whose ledger fields were read and copied — is
exactly the class it was before the call. -/
theorem C9_frame (Γ Γ' : ClassTable) (dn f cn : String)
    (hok : delegate_to Γ dn f cn = .ok Γ') :
    ∀ x, x ≠ cn → findCls Γ' x = findCls Γ x := by
  intro x hx
  unfold delegate_to at hok
  cases h1 : findCls Γ cn with
  | none =>
    rw [h1] at hok
    cases h2 : findCls Γ dn <;> rw [h2] at hok <;> cases hok
  | some cls =>
    cases h2 : findCls Γ dn with
    | none => rw [h1, h2] at hok; cases hok
    | some dty =>
      rw [h1, h2] at hok
      dsimp only at hok
      by_cases hsub : dn ∈ cls.mro
      · rw [if_pos hsub] at hok
        cases hT : getLedgerTypes Γ cls with
        | error e => rw [hT] at hok; cases hok
        | ok bs =>
          rw [hT] at hok
          cases hMm : getLedgerMembers
              (setCls Γ cn (instCls cls dty f)) (instCls cls dty f) with
          | error e => rw [hMm] at hok; cases hok
          | ok ms =>
            rw [hMm] at hok
            injection hok with hok
            subst hok
            rw [findCls_setCls Γ cn (finalCls cls dty f dn bs ms)
              (name_of_findCls Γ cn cls h1) x, if_neg hx]
      · rw [if_neg hsub] at hok
        cases hok

/-- Witness for C9: after delegating `H` to `D`, the class `D` itself is
untouched. -/
theorem C9_frame_witness : findCls exT1 "D" = findCls exGamma "D" :=
  C9_frame exGamma exT1 "D" "f" "H" (by decide) "D" (by decide)

/-- C4 counterexample: the exclusion policy is not applied to annotation-only
members.  The delegate class `exD4` declares the dunder name `__x__` only via
an annotation, and `__x__` appears in the classified member set even though
it starts with `__`; dict members `doThing` (a function) and `__internal`
(a dunder) are excluded as the claim says. -/
theorem C4_counterexample :
    "__x__" ∈ targets exD4 ∧ startswith "__x__" "__" = true ∧
      "doThing" ∉ targets exD4 ∧ "__internal" ∉ targets exD4 := by
  decide

/-- C4 (amended): a name is classified as eligible iff it is a `__dict__`
member on which `_should_ignore_attribute_for_field` is false (so callables,
`__`-prefixed names and ignore-listed names enumerated from the class dict
never qualify through the dict), or it appears in the class's annotations —
annotation names are included unconditionally, with no exclusion applied. -/
theorem C4_classification_characterization (D : PyClass) (m : String) :
    m ∈ targets D ↔
      ((∃ v, (m, v) ∈ D.cdict ∧ should_ignore_attribute_for_field m v = false)
        ∨ m ∈ D.annotations) := by
  unfold targets dict_fields
  rw [List.mem_dedup, List.mem_append]
  constructor
  · rintro (hd | ha)
    · left
      rcases List.mem_map.mp hd with ⟨⟨k, v⟩, hkv, hk⟩
      rcases List.mem_filter.mp hkv with ⟨hmem, hpred⟩
      simp only at hk
      subst hk
      exact ⟨v, hmem, by simpa using hpred⟩
    · exact Or.inr ha
  · rintro (⟨v, hmem, hpred⟩ | ha)
    · left
      exact List.mem_map.mpr ⟨(m, v),
        List.mem_filter.mpr ⟨hmem, by simpa using hpred⟩, rfl⟩
    · exact Or.inr ha

/-- C7: after a successful `delegate_to` application, reading a forwarded
member name on the host type itself (no instance) returns the installed
accessor object — `DelegatedProperty.__get__` receives `instance = None` and
executes `return self` — not a value read from any delegate. -/
theorem C7_type_level_access (Γ Γ' : ClassTable) (dn f cn m : String)
    (cls dty : PyClass) (bs : List (String × String)) (ms mrest : List String)
    (h1 : findCls Γ cn = some cls) (h2 : findCls Γ dn = some dty)
    (hsub : dn ∈ cls.mro) (hmro : cls.mro = cn :: mrest)
    (hT : getLedgerTypes Γ cls = .ok bs)
    (hbM : DELEGATE_MEMBERS_FIELD ∉ targets dty)
    (hM : getLedgerMembers Γ cls = .ok ms)
    (hm : m ∈ targets dty) (hmM : m ≠ DELEGATE_MEMBERS_FIELD)
    (hmT : m ≠ DELEGATE_TYPES_FIELD)
    (hok : delegate_to Γ dn f cn = .ok Γ') :
    getattrT Γ' cn m = some (.vprop f m) := by
  rw [delegate_to_ok Γ dn f cn cls dty bs ms h1 h2 hsub hT hbM hM] at hok
  injection hok with hok
  subst hok
  have hname : cls.name = cn := name_of_findCls Γ cn cls h1
  have hfind := findCls_after Γ cn cls (finalCls cls dty f dn bs ms) h1 hname
  unfold getattrT
  simp only [hfind]
  have hmro' : (finalCls cls dty f dn bs ms).mro = cn :: mrest := hmro
  rw [hmro', mroLookup_head _ cn mrest (finalCls cls dty f dn bs ms) m
    (.vprop f m) hfind (finalCls_lookup_target cls dty f dn m bs ms hm hmM hmT)]

/-- Witness for C7 at the concrete example: after delegation, `H.m` is the
accessor object bound to field `f` and member `m`. -/
theorem C7_type_level_access_witness :
    getattrT exT1 "H" "m" = some (.vprop "f" "m") :=
  C7_type_level_access exGamma exT1 "D" "f" "H" "m" exH exD [] [] ["D"]
    (by decide) (by decide) (by decide) (by decide) (by decide) (by decide)
    (by decide) (by decide) (by decide) (by decide) (by decide)

/-- C6: on a successful application of `delegate_to`, the bindings tuple
visible on the host class afterwards is exactly the tuple that was visible
before the call — including a tuple inherited from an ancestor along the MRO,
whose entries come first by construction — with the new
`(magic_field, delegate_type)` pair appended; the new tuple is bound on the
decorated class itself, layering over rather than replacing an ancestor
tuple. -/
theorem C6_ledger_append (Γ Γ' : ClassTable) (dn f cn : String)
    (cls dty : PyClass) (bs : List (String × String)) (ms mrest : List String)
    (h1 : findCls Γ cn = some cls) (h2 : findCls Γ dn = some dty)
    (hsub : dn ∈ cls.mro) (hmro : cls.mro = cn :: mrest)
    (hT : getLedgerTypes Γ cls = .ok bs)
    (hbM : DELEGATE_MEMBERS_FIELD ∉ targets dty)
    (hM : getLedgerMembers Γ cls = .ok ms)
    (hok : delegate_to Γ dn f cn = .ok Γ') :
    getBindings Γ' cn = getBindings Γ cn ++ [(f, dn)] := by
  rw [delegate_to_ok Γ dn f cn cls dty bs ms h1 h2 hsub hT hbM hM] at hok
  injection hok with hok
  subst hok
  have hname : cls.name = cn := name_of_findCls Γ cn cls h1
  have hfind := findCls_after Γ cn cls (finalCls cls dty f dn bs ms) h1 hname
  have hold : getBindings Γ cn = bs := getBindings_of_types Γ cn cls bs h1 hT
  rw [hold]
  unfold getBindings
  simp only [hfind]
  have hmro' : (finalCls cls dty f dn bs ms).mro = cn :: mrest := hmro
  rw [hmro', mroLookup_head _ cn mrest (finalCls cls dty f dn bs ms)
    DELEGATE_TYPES_FIELD (.vbindings (bs ++ [(f, dn)])) hfind
    (finalCls_lookup_types cls dty f dn bs ms)]

/-- Witness for C6: the subclass `HS` inherits the visible binding
`("f", "D")` from `H` and layers `("g", "D")` on top of it. -/
theorem C6_ledger_append_witness :
    getBindings exTS "HS" = getBindings exGammaS "HS" ++ [("g", "D")] :=
  C6_ledger_append exGammaS exTS "D" "g" "HS" exHS exD [("f", "D")]
    ["m", "n"] ["H", "D"] (by decide) (by decide) (by decide) (by decide)
    (by decide) (by decide) (by decide) (by decide)

/-- C1 counterexample: the claim fails for a host instance whose own dict
also binds the forwarded name.  `exhShadow` has its field `f` holding the
delegate `exd` (with `exd.m = 7`), and `m` is eligible, yet reading `m` on
the instance yields its own `99`: the installed `DelegatedProperty` has no
`__set__`, making it a non-data descriptor, which instance-dict entries
shadow. -/
theorem C1_counterexample :
    (delegate_to exGamma "D" "f" "H" = .ok exT1 ∧
      "m" ∈ targets exD ∧
      assocFind exhShadow.idict "f" = some (.ref 0) ∧
      heapGet exHeap 0 = some exd ∧
      getattrO exT1 exHeap 3 exhShadow "m" = some (.vint 99) ∧
      getattrO exT1 exHeap 3 exd "m" = some (.vint 7) ∧
      (PyVal.vint 99) ≠ (PyVal.vint 7)) ∧
    (delegate_to exGammaT "DT" "f" "HT" = .ok exTT ∧
      "___delegate_type_mapping___" ∈ targets exDT ∧
      assocFind exhT.idict "___delegate_type_mapping___" = none ∧
      getattrO exTT exHeapT 3 exhT "___delegate_type_mapping___" =
        some (.vbindings [("f", "DT")]) ∧
      getattrO exTT exHeapT 3 exdT "___delegate_type_mapping___" =
        some (.vint 1)) := by
  decide

/-- C1 (amended): after a successful `delegate_to(D, f)` application to the
host class, for every classified member `m` of the delegate type that is not
one of the two bookkeeping names, and every host instance whose field `f`
holds (a reference to) a delegate object `d` and whose own instance dict does
not bind `m`, reading `m` on the host instance takes one descriptor step and
then returns exactly what reading `m` on `d` returns. -/
theorem C1_delegated_read (Γ Γ' : ClassTable) (Hp : Heap) (dn f cn m : String)
    (cls dty : PyClass) (bs : List (String × String)) (ms mrest : List String)
    (hdict : List (String × PyVal)) (a : Nat) (d : PyObj) (fuel : Nat)
    (h1 : findCls Γ cn = some cls) (h2 : findCls Γ dn = some dty)
    (hsub : dn ∈ cls.mro) (hmro : cls.mro = cn :: mrest)
    (hT : getLedgerTypes Γ cls = .ok bs)
    (hbM : DELEGATE_MEMBERS_FIELD ∉ targets dty)
    (hM : getLedgerMembers Γ cls = .ok ms)
    (hm : m ∈ targets dty) (hmM : m ≠ DELEGATE_MEMBERS_FIELD)
    (hmT : m ≠ DELEGATE_TYPES_FIELD)
    (hshadow : assocFind hdict m = none)
    (hfield : assocFind hdict f = some (.ref a))
    (hheap : heapGet Hp a = some d)
    (hok : delegate_to Γ dn f cn = .ok Γ') :
    getattrO Γ' Hp (fuel + 1) ⟨cn, hdict⟩ m = getattrO Γ' Hp fuel d m := by
  rw [delegate_to_ok Γ dn f cn cls dty bs ms h1 h2 hsub hT hbM hM] at hok
  injection hok with hok
  subst hok
  have hname : cls.name = cn := name_of_findCls Γ cn cls h1
  have hfind := findCls_after Γ cn cls (finalCls cls dty f dn bs ms) h1 hname
  have hmro' : (finalCls cls dty f dn bs ms).mro = cn :: mrest := hmro
  rw [getattrO_prop_step _ Hp fuel ⟨cn, hdict⟩ m f m
    (finalCls cls dty f dn bs ms) hshadow hfind
    (by
      rw [hmro']
      exact mroLookup_head _ cn mrest (finalCls cls dty f dn bs ms) m
        (.vprop f m) hfind
        (finalCls_lookup_target cls dty f dn m bs ms hm hmM hmT))]
  rw [getattrO_idict _ Hp fuel ⟨cn, hdict⟩ f (.ref a) hfield]
  dsimp only
  rw [hheap]

/-- Witness for C1 (amended) at the concrete example: reading `m` on the
clean host instance equals reading `m` on the delegate. -/
theorem C1_delegated_read_witness :
    getattrO exT1 exHeap 3 exh "m" = getattrO exT1 exHeap 2 exd "m" :=
  C1_delegated_read exGamma exT1 exHeap "D" "f" "H" "m" exH exD [] [] ["D"]
    [("f", .ref 0)] 0 exd 2 (by decide) (by decide) (by decide) (by decide)
    (by decide) (by decide) (by decide) (by decide) (by decide) (by decide)
    (by decide) (by decide) (by decide) (by decide)

/-- C2 counterexample: executing the assignment `h.m = 5` on a host instance
does not fail — the source installs no `__set__` on `DelegatedProperty`, and
there is no `UnsupportedOperationError` anywhere in the module — so the write
lands in the instance dict and reads back as `5`, while the delegate still
holds `7`. -/
theorem C2_counterexample :
    setattrO exh "m" (.vint 5) = ⟨"H", [("f", .ref 0), ("m", .vint 5)]⟩ ∧
      getattrO exT1 exHeap 3 (setattrO exh "m" (.vint 5)) "m" =
        some (.vint 5) ∧
      getattrO exT1 exHeap 3 exd "m" = some (.vint 7) ∧
      getattrO exT1 exHeap 3 (setattrO exh "m" (.vint 5)) "f" =
        some (.ref 0) := by
  decide

/-- C2 (amended): assigning a value to a forwarded name `m` on a host
instance never raises: because `DelegatedProperty` defines no `__set__`,
Python's assignment protocol writes the instance's own dict, where the value
then reads back; the value held in the delegate field `f` is untouched
whenever `m` and `f` differ. -/
theorem C2_write_shadows (Γ : ClassTable) (Hp : Heap) (fuel : Nat)
    (cn m f : String) (hdict : List (String × PyVal)) (v dv : PyVal)
    (hmf : m ≠ f) (hf : assocFind hdict f = some dv) :
    getattrO Γ Hp fuel (setattrO ⟨cn, hdict⟩ m v) f = some dv ∧
      getattrO Γ Hp fuel (setattrO ⟨cn, hdict⟩ m v) m = some v := by
  constructor
  · apply getattrO_idict
    show assocFind (assocSet hdict m v) f = some dv
    rw [assocFind_assocSet, if_neg hmf, hf]
  · apply getattrO_idict
    show assocFind (assocSet hdict m v) m = some v
    rw [assocFind_assocSet, if_pos rfl]

/-- Witness for C2 (amended) at the concrete example: after `h.m = 5` the
field `f` still holds the delegate reference and `m` reads back `5`. -/
theorem C2_write_shadows_witness :
    getattrO exT1 exHeap 3 (setattrO exh "m" (.vint 5)) "f" =
        some (.ref 0) ∧
      getattrO exT1 exHeap 3 (setattrO exh "m" (.vint 5)) "m" =
        some (.vint 5) :=
  C2_write_shadows exT1 exHeap 3 "H" "m" "f" [("f", .ref 0)] (.vint 5)
    (.ref 0) (by decide) (by decide)

/-- Reading a name on a type whose own dict binds a `DelegatedProperty`
returns that property object (the `instance = None` branch of `__get__`). -/
theorem getattrT_found_prop (Γ : ClassTable) (cn m f : String) (c : PyClass)
    (mrest : List String)
    (hfind : findCls Γ cn = some c) (hmro : c.mro = cn :: mrest)
    (hdict : assocFind c.cdict m = some (.vprop f m)) :
    getattrT Γ cn m = some (.vprop f m) := by
  unfold getattrT
  simp only [hfind]
  rw [hmro, mroLookup_head Γ cn mrest c m (.vprop f m) hfind hdict]

/-- Reading the forwarded-name set off a class whose own dict binds the
members frozenset. -/
theorem forwardedNames_head (Γ : ClassTable) (cn : String) (c : PyClass)
    (mrest ns : List String)
    (hfind : findCls Γ cn = some c) (hmro : c.mro = cn :: mrest)
    (hdict : assocFind c.cdict DELEGATE_MEMBERS_FIELD =
      some (.vfrozenset ns)) :
    forwardedNames Γ cn = ns := by
  unfold forwardedNames
  simp only [hfind]
  rw [hmro, mroLookup_head Γ cn mrest c DELEGATE_MEMBERS_FIELD
    (.vfrozenset ns) hfind hdict]

/-- Reading the bindings tuple off a class whose own dict binds it. -/
theorem getBindings_head (Γ : ClassTable) (cn : String) (c : PyClass)
    (mrest : List String) (bs : List (String × String))
    (hfind : findCls Γ cn = some c) (hmro : c.mro = cn :: mrest)
    (hdict : assocFind c.cdict DELEGATE_TYPES_FIELD =
      some (.vbindings bs)) :
    getBindings Γ cn = bs := by
  unfold getBindings
  simp only [hfind]
  rw [hmro, mroLookup_head Γ cn mrest c DELEGATE_TYPES_FIELD
    (.vbindings bs) hfind hdict]

/-- C5: layering two delegations with disjoint classified member sets onto a
host class with no previously visible ledger yields a forwarded-name set
equal to the union of the two classified sets, and each forwarded member
resolves through the accessor of its own layer: names of the first delegate
type are bound to field `f1`, names of the second to field `f2`. -/
theorem C5_layering (Γ Γ1 Γ2 : ClassTable) (d1n d2n f1 f2 cn : String)
    (cls dty1 dty2 : PyClass) (mrest : List String)
    (h1 : findCls Γ cn = some cls)
    (hd1 : findCls Γ d1n = some dty1) (hd2 : findCls Γ d2n = some dty2)
    (hne2 : d2n ≠ cn)
    (hsub1 : d1n ∈ cls.mro) (hsub2 : d2n ∈ cls.mro)
    (hmro : cls.mro = cn :: mrest)
    (hm0 : mroLookup Γ cls.mro DELEGATE_MEMBERS_FIELD = none)
    (ht0 : mroLookup Γ cls.mro DELEGATE_TYPES_FIELD = none)
    (hdisj : ∀ x, x ∈ targets dty1 → x ∉ targets dty2)
    (hbM1 : DELEGATE_MEMBERS_FIELD ∉ targets dty1)
    (hbT1 : DELEGATE_TYPES_FIELD ∉ targets dty1)
    (hbM2 : DELEGATE_MEMBERS_FIELD ∉ targets dty2)
    (hbT2 : DELEGATE_TYPES_FIELD ∉ targets dty2)
    (hok1 : delegate_to Γ d1n f1 cn = .ok Γ1)
    (hok2 : delegate_to Γ1 d2n f2 cn = .ok Γ2) :
    (forwardedNames Γ2 cn).toFinset =
        (targets dty1).toFinset ∪ (targets dty2).toFinset ∧
      (∀ m ∈ targets dty1, getattrT Γ2 cn m = some (.vprop f1 m)) ∧
      (∀ m ∈ targets dty2, getattrT Γ2 cn m = some (.vprop f2 m)) := by
  have hT0 : getLedgerTypes Γ cls = .ok [] := by
    unfold getLedgerTypes
    rw [ht0]
  have hM0 : getLedgerMembers Γ cls = .ok [] := by
    unfold getLedgerMembers
    rw [hm0]
  rw [delegate_to_ok Γ d1n f1 cn cls dty1 [] [] h1 hd1 hsub1 hT0 hbM1 hM0]
    at hok1
  injection hok1 with hok1
  subst hok1
  have hname : cls.name = cn := name_of_findCls Γ cn cls h1
  have hfind1 := findCls_after Γ cn cls (finalCls cls dty1 f1 d1n [] []) h1
    hname
  have hfd2 : findCls (setCls Γ cn (finalCls cls dty1 f1 d1n [] [])) d2n =
      some dty2 := by
    rw [findCls_setCls Γ cn (finalCls cls dty1 f1 d1n [] []) hname d2n,
      if_neg hne2]
    exact hd2
  have hmro1 : (finalCls cls dty1 f1 d1n [] []).mro = cn :: mrest := hmro
  have hT1 : getLedgerTypes (setCls Γ cn (finalCls cls dty1 f1 d1n [] []))
      (finalCls cls dty1 f1 d1n [] []) = .ok [(f1, d1n)] := by
    unfold getLedgerTypes
    rw [hmro1, mroLookup_head _ cn mrest (finalCls cls dty1 f1 d1n [] [])
      DELEGATE_TYPES_FIELD (.vbindings ([] ++ [(f1, d1n)])) hfind1
      (finalCls_lookup_types cls dty1 f1 d1n [] [])]
    rfl
  have hM1 : getLedgerMembers (setCls Γ cn (finalCls cls dty1 f1 d1n [] []))
      (finalCls cls dty1 f1 d1n [] []) = .ok ((targets dty1 ++ []).dedup) := by
    unfold getLedgerMembers
    rw [hmro1, mroLookup_head _ cn mrest (finalCls cls dty1 f1 d1n [] [])
      DELEGATE_MEMBERS_FIELD (.vfrozenset ((targets dty1 ++ []).dedup)) hfind1
      (finalCls_lookup_members cls dty1 f1 d1n [] [])]
  rw [delegate_to_ok _ d2n f2 cn (finalCls cls dty1 f1 d1n [] []) dty2
    [(f1, d1n)] ((targets dty1 ++ []).dedup) hfind1 hfd2 hsub2 hT1 hbM2 hM1]
    at hok2
  injection hok2 with hok2
  subst hok2
  have hfind2 := findCls_after _ cn (finalCls cls dty1 f1 d1n [] [])
    (finalCls (finalCls cls dty1 f1 d1n [] []) dty2 f2 d2n [(f1, d1n)]
      ((targets dty1 ++ []).dedup)) hfind1 hname
  have hmro2 : (finalCls (finalCls cls dty1 f1 d1n [] []) dty2 f2 d2n
      [(f1, d1n)] ((targets dty1 ++ []).dedup)).mro = cn :: mrest := hmro
  refine ⟨?_, ?_, ?_⟩
  · rw [forwardedNames_head _ cn _ mrest
      ((targets dty2 ++ (targets dty1 ++ []).dedup).dedup) hfind2 hmro2
      (finalCls_lookup_members (finalCls cls dty1 f1 d1n [] []) dty2 f2 d2n
        [(f1, d1n)] ((targets dty1 ++ []).dedup))]
    ext x
    simp [List.mem_dedup, List.mem_toFinset, List.mem_append, or_comm]
  · intro m hm
    have hmM : m ≠ DELEGATE_MEMBERS_FIELD := fun h => hbM1 (h ▸ hm)
    have hmT : m ≠ DELEGATE_TYPES_FIELD := fun h => hbT1 (h ▸ hm)
    refine getattrT_found_prop _ cn m f1 _ mrest hfind2 hmro2 ?_
    exact (finalCls_lookup_other (finalCls cls dty1 f1 d1n [] []) dty2 f2 d2n
      m [(f1, d1n)] ((targets dty1 ++ []).dedup) (hdisj m hm) hmM
      hmT).trans (finalCls_lookup_target cls dty1 f1 d1n m [] [] hm hmM hmT)
  · intro m hm
    have hmM : m ≠ DELEGATE_MEMBERS_FIELD := fun h => hbM2 (h ▸ hm)
    have hmT : m ≠ DELEGATE_TYPES_FIELD := fun h => hbT2 (h ▸ hm)
    exact getattrT_found_prop _ cn m f2 _ mrest hfind2 hmro2
      (finalCls_lookup_target (finalCls cls dty1 f1 d1n [] []) dty2 f2 d2n m
        [(f1, d1n)] ((targets dty1 ++ []).dedup) hm hmM hmT)

/-- Witness for C5 at the concrete example: layering `D` (members `m`, `n`,
field `f1`) and `D2` (member `p`, field `f2`) on `H5`. -/
theorem C5_layering_witness :
    (forwardedNames exT5b "H5").toFinset =
        (targets exD).toFinset ∪ (targets exD2).toFinset ∧
      (∀ m ∈ targets exD, getattrT exT5b "H5" m = some (.vprop "f1" m)) ∧
      (∀ m ∈ targets exD2, getattrT exT5b "H5" m = some (.vprop "f2" m)) :=
  C5_layering exGamma5 exT5a exT5b "D" "D2" "f1" "f2" "H5" exH5 exD exD2
    ["D", "D2"] (by decide) (by decide) (by decide) (by decide) (by decide)
    (by decide) (by decide) (by decide) (by decide) (by decide) (by decide)
    (by decide) (by decide) (by decide) (by decide) (by decide)

/-- C10: re-applying the identical delegation (same delegate type, same magic
field) to the same host class leaves the forwarded-name set unchanged as a
set and leaves every installed accessor exactly as it was, but appends a
second, duplicate `(magic_field, delegate_type)` pair to the bindings tuple:
the bindings sequence is not deduplicated. -/
theorem C10_reapplication (Γ Γ1 Γ2 : ClassTable) (dn f cn : String)
    (cls dty : PyClass) (mrest : List String)
    (h1 : findCls Γ cn = some cls) (h2 : findCls Γ dn = some dty)
    (hne : dn ≠ cn) (hsub : dn ∈ cls.mro) (hmro : cls.mro = cn :: mrest)
    (hm0 : mroLookup Γ cls.mro DELEGATE_MEMBERS_FIELD = none)
    (ht0 : mroLookup Γ cls.mro DELEGATE_TYPES_FIELD = none)
    (hbM : DELEGATE_MEMBERS_FIELD ∉ targets dty)
    (hbT : DELEGATE_TYPES_FIELD ∉ targets dty)
    (hok1 : delegate_to Γ dn f cn = .ok Γ1)
    (hok2 : delegate_to Γ1 dn f cn = .ok Γ2) :
    (forwardedNames Γ2 cn).toFinset = (forwardedNames Γ1 cn).toFinset ∧
      getBindings Γ1 cn = [(f, dn)] ∧
      getBindings Γ2 cn = [(f, dn), (f, dn)] ∧
      (∀ m ∈ targets dty, getattrT Γ2 cn m = getattrT Γ1 cn m) := by
  have hT0 : getLedgerTypes Γ cls = .ok [] := by
    unfold getLedgerTypes
    rw [ht0]
  have hM0 : getLedgerMembers Γ cls = .ok [] := by
    unfold getLedgerMembers
    rw [hm0]
  rw [delegate_to_ok Γ dn f cn cls dty [] [] h1 h2 hsub hT0 hbM hM0] at hok1
  injection hok1 with hok1
  subst hok1
  have hname : cls.name = cn := name_of_findCls Γ cn cls h1
  have hfind1 := findCls_after Γ cn cls (finalCls cls dty f dn [] []) h1 hname
  have hfd2 : findCls (setCls Γ cn (finalCls cls dty f dn [] [])) dn =
      some dty := by
    rw [findCls_setCls Γ cn (finalCls cls dty f dn [] []) hname dn,
      if_neg hne]
    exact h2
  have hmro1 : (finalCls cls dty f dn [] []).mro = cn :: mrest := hmro
  have hT1 : getLedgerTypes (setCls Γ cn (finalCls cls dty f dn [] []))
      (finalCls cls dty f dn [] []) = .ok [(f, dn)] := by
    unfold getLedgerTypes
    rw [hmro1, mroLookup_head _ cn mrest (finalCls cls dty f dn [] [])
      DELEGATE_TYPES_FIELD (.vbindings ([] ++ [(f, dn)])) hfind1
      (finalCls_lookup_types cls dty f dn [] [])]
    rfl
  have hM1 : getLedgerMembers (setCls Γ cn (finalCls cls dty f dn [] []))
      (finalCls cls dty f dn [] []) = .ok ((targets dty ++ []).dedup) := by
    unfold getLedgerMembers
    rw [hmro1, mroLookup_head _ cn mrest (finalCls cls dty f dn [] [])
      DELEGATE_MEMBERS_FIELD (.vfrozenset ((targets dty ++ []).dedup)) hfind1
      (finalCls_lookup_members cls dty f dn [] [])]
  rw [delegate_to_ok _ dn f cn (finalCls cls dty f dn [] []) dty [(f, dn)]
    ((targets dty ++ []).dedup) hfind1 hfd2 hsub hT1 hbM hM1] at hok2
  injection hok2 with hok2
  subst hok2
  have hfind2 := findCls_after _ cn (finalCls cls dty f dn [] [])
    (finalCls (finalCls cls dty f dn [] []) dty f dn [(f, dn)]
      ((targets dty ++ []).dedup)) hfind1 hname
  have hmro2 : (finalCls (finalCls cls dty f dn [] []) dty f dn [(f, dn)]
      ((targets dty ++ []).dedup)).mro = cn :: mrest := hmro
  refine ⟨?_, ?_, ?_, ?_⟩
  · rw [forwardedNames_head _ cn _ mrest
      ((targets dty ++ (targets dty ++ []).dedup).dedup) hfind2 hmro2
      (finalCls_lookup_members (finalCls cls dty f dn [] []) dty f dn
        [(f, dn)] ((targets dty ++ []).dedup)),
      forwardedNames_head _ cn _ mrest ((targets dty ++ []).dedup) hfind1
        hmro1 (finalCls_lookup_members cls dty f dn [] [])]
    ext x
    simp [List.mem_dedup, List.mem_toFinset, List.mem_append]
  · rw [getBindings_head _ cn _ mrest ([] ++ [(f, dn)]) hfind1 hmro1
      (finalCls_lookup_types cls dty f dn [] [])]
    rfl
  · rw [getBindings_head _ cn _ mrest ([(f, dn)] ++ [(f, dn)]) hfind2 hmro2
      (finalCls_lookup_types (finalCls cls dty f dn [] []) dty f dn [(f, dn)]
        ((targets dty ++ []).dedup))]
    rfl
  · intro m hm
    have hmM : m ≠ DELEGATE_MEMBERS_FIELD := fun h => hbM (h ▸ hm)
    have hmT : m ≠ DELEGATE_TYPES_FIELD := fun h => hbT (h ▸ hm)
    rw [getattrT_found_prop _ cn m f _ mrest hfind2 hmro2
      (finalCls_lookup_target (finalCls cls dty f dn [] []) dty f dn m
        [(f, dn)] ((targets dty ++ []).dedup) hm hmM hmT),
      getattrT_found_prop _ cn m f _ mrest hfind1 hmro1
      (finalCls_lookup_target cls dty f dn m [] [] hm hmM hmT)]

/-- Witness for C10 at the concrete example: re-applying `delegate_to(D, "f")`
to `H`. -/
theorem C10_reapplication_witness :
    (forwardedNames exT10 "H").toFinset = (forwardedNames exT1 "H").toFinset ∧
      getBindings exT1 "H" = [("f", "D")] ∧
      getBindings exT10 "H" = [("f", "D"), ("f", "D")] ∧
      (∀ m ∈ targets exD, getattrT exT10 "H" m = getattrT exT1 "H" m) :=
  C10_reapplication exGamma exT1 exT10 "D" "f" "H" exH exD ["D"]
    (by decide) (by decide) (by decide) (by decide) (by decide) (by decide)
    (by decide) (by decide) (by decide) (by decide) (by decide)

end HikariDelegate
